import Mathlib

/-!
Shallow embedding of the Minesweeper state-transition core in
src/src/models/game.js: board generation (`restart`), the reveal operation
(`uncoverTile`, with its first-move regeneration loop and recursive flood
fill) and the flag toggle (`flagTile`).

Conventions of the embedding:
* JS arrays of arrays become `List (List _)`; an out-of-bounds JS read gives
  `undefined`, which is falsy in the boolean positions where the source uses
  it, so reads are modelled with `getD` and an explicit default.
* The lodash `shuffle` randomness source is a parameter: board generation
  takes the already-shuffled marker list, and the regeneration loop takes a
  stream `shuffles : Nat → List Bool` of successive shuffle outcomes plus a
  fuel bound for the source's unbounded `while` loop.
* JS numbers used as counters become `Nat` (`uncoveredCount`, `movesCount`)
  or `Int` (`flagsCount`, which the source decrements), and `bombOdds`
  becomes `ℚ` with `Math.round` modelled as `⌊q + 1/2⌋`.
* The timing fields `startedAt` / `finishedAt` (stamped from the external
  clock source) are outside the embedded state.
* The enum modules and `calculations.js` are not part of the given sources;
  the tile/game state enums and `allDirections` / `countProximities` are
  modelled from the spec, as marked on their doc comments.
-/

/-- Tile bomb states (`tileBombStates` of values.js, evidenced by game.js usage). -/
inductive BombState where
  | blank
  | bomb
  deriving DecidableEq, Repr

/-- Tile user states (`tileUserStates` of values.js, evidenced by game.js usage).
`opened` models the source's `open`, which is a reserved word in Lean. -/
inductive UserState where
  | covered
  | opened
  | flag
  | hitBomb
  deriving DecidableEq, Repr

/-- Game states (`gameStates` of values.js, evidenced by game.js usage). -/
inductive GameState where
  | fresh
  | playing
  | beginningMove
  | gameOver
  | winner
  | restarting
  deriving DecidableEq, Repr

/-- A board tile: `{ bombState, userState }` as built in `restart`. -/
structure Tile where
  bombState : BombState
  userState : UserState
  deriving DecidableEq, Repr

/-- The game snapshot returned by `restart` and threaded through the moves. -/
structure Snapshot where
  gameState : GameState
  columns : Nat
  rows : Nat
  board : List (List Tile)
  proximities : List (List Nat)
  bombsCount : Nat
  uncoveredCount : Nat
  flagsCount : Int
  movesCount : Nat
  deriving DecidableEq, Repr

/-- The `{ columns, rows, bombOdds }` difficulty settings record. -/
structure Settings where
  columns : Nat
  rows : Nat
  bombOdds : ℚ
  deriving DecidableEq, Repr

/-- Default used to model a JS out-of-bounds tile read. -/
def defaultTile : Tile := ⟨BombState.blank, UserState.covered⟩

/-- Read `board[r][c]` with JS out-of-bounds reads mapped to the default tile. -/
def tileAt (board : List (List Tile)) (r c : Nat) : Tile :=
  (board.getD r []).getD c defaultTile

/-- Read `proximities[r][c]`, out-of-bounds reads defaulting to 0. -/
def proxAt (prox : List (List Nat)) (r c : Nat) : Nat :=
  (prox.getD r []).getD c 0

/-- The write `newBoard[rowIndex][colIndex] = newItem`: replace one entry of the grid.
Out of bounds, `List.set` is a no-op, which is only exercised under in-bounds
hypotheses in the development. -/
def setTile (board : List (List Tile)) (r c : Nat) (t : Tile) : List (List Tile) :=
  board.set r ((board.getD r []).set c t)

/-- Modelled from the spec: `allDirections` lives in src/models/calculations.js,
which is not among the given sources. Spec sections 3 and 4.1 and the glossary:
a cell's neighbors are the up-to-8 surrounding cells, i.e. the 8 compass
offsets of `(rowIndex, colIndex)`. Each direction maps a coordinate pair to a
neighbor coordinate pair (possibly out of bounds, filtered by the caller). -/
def allDirections : List (Int → Int → Int × Int) :=
  [fun r c => (r - 1, c - 1), fun r c => (r - 1, c), fun r c => (r - 1, c + 1),
   fun r c => (r, c - 1), fun r c => (r, c + 1),
   fun r c => (r + 1, c - 1), fun r c => (r + 1, c), fun r c => (r + 1, c + 1)]

/-- Whether the (possibly negative / out-of-range) coordinate holds a bomb. -/
def hasBombAt (board : List (List Tile)) (r c : Int) : Bool :=
  0 ≤ r && 0 ≤ c && r < (board.length : Int) &&
    c < (((board.getD r.toNat []).length : Nat) : Int) &&
    (tileAt board r.toNat c.toNat).bombState == BombState.bomb

/-- Modelled from the spec: `countProximities` lives in
src/models/calculations.js, which is not among the given sources. Spec
section 4.1: for every cell, count bomb-marked cells among its up-to-8
neighbors (bounds-clamped); the grid has the same dimensions as the board. -/
def countProximities (board : List (List Tile)) : List (List Nat) :=
  (List.range board.length).map fun r =>
    (List.range (board.getD r []).length).map fun c =>
      (allDirections.filter fun f =>
        hasBombAt board (f (r : Int) (c : Int)).1 (f (r : Int) (c : Int)).2).length

/-- Function `changeItemToUncovered` of game.js. -/
def changeItemToUncovered (item : Tile) : Tile :=
  if item.bombState = BombState.bomb then { item with userState := UserState.hitBomb }
  else { item with userState := UserState.opened }

/-- Function `canPlayForGameState` of game.js. -/
def canPlayForGameState (gameState : GameState) : Bool :=
  gameState == GameState.fresh || gameState == GameState.playing ||
    gameState == GameState.beginningMove

/-- Function `canExpandTile` of game.js. -/
def canExpandTile (item : Tile) (proximity : Nat) : Bool :=
  item.bombState == BombState.blank && proximity == 0

/-- JS `Math.round` on the nonnegative rationals arising here: `⌊q + 1/2⌋`. -/
def mathRound (q : ℚ) : ℤ := Int.floor (q + 1 / 2)

/-- The `Math.round(bombOdds * tilesCount)` computation of `restart`. -/
def bombsCountOf (columns rows : Nat) (bombOdds : ℚ) : Nat :=
  (mathRound (bombOdds * ((columns * rows : Nat) : ℚ))).toNat

/-- The board construction of `restart` (game.js): tiles are covered, and the
marker for the cell at `(rowIndex, columnIndex)` is read from the shuffled
list at index `rowIndex * rows + columnIndex`, exactly as the source writes
it. A JS out-of-range read yields `undefined`, which is falsy in the
`hasBomb ? _ : _` conditional, hence the `getD _ false`. -/
def restartBoard (columns rows : Nat) (shuffledBombs : List Bool) : List (List Tile) :=
  (List.range rows).map fun rowIndex =>
    (List.range columns).map fun columnIndex =>
      { bombState :=
          if shuffledBombs.getD (rowIndex * rows + columnIndex) false then BombState.bomb
          else BombState.blank,
        userState := UserState.covered }

/-- Function `restart` of game.js, with the difficulty lookup already resolved to
explicit settings and the shuffle outcome passed in. A faithful caller passes
a `shuffledBombs` that is a permutation of `bombsCount` bomb markers and
`tilesCount - bombsCount` blank markers. -/
def restart (columns rows : Nat) (bombOdds : ℚ) (shuffledBombs : List Bool) : Snapshot :=
  let board := restartBoard columns rows shuffledBombs
  { gameState := GameState.fresh
    columns := columns
    rows := rows
    board := board
    proximities := countProximities board
    bombsCount := bombsCountOf columns rows bombOdds
    uncoveredCount := 0
    flagsCount := 0
    movesCount := 0 }

/-- One candidate board/proximity pair produced by `restart(props)` inside the
first-move regeneration loop (the loop keeps only `.board` and `.proximities`
of the freshly restarted state). -/
def regenPair (props : Settings) (sb : List Bool) : List (List Tile) × List (List Nat) :=
  let b := restartBoard props.columns props.rows sb
  (b, countProximities b)

/-- The `while (board[rowIndex][colIndex].bombState === bomb)` regeneration
loop of `uncoverTile`, with the unbounded JS loop bounded by `fuel` and the
`k`-th iteration consuming shuffle outcome `shuffles k`. -/
def regenLoop (props : Settings) (shuffles : Nat → List Bool) (rowIndex colIndex : Nat) :
    Nat → Nat → List (List Tile) × List (List Nat) → List (List Tile) × List (List Nat)
  | 0, _, bp => bp
  | fuel + 1, k, bp =>
    if (tileAt bp.1 rowIndex colIndex).bombState = BombState.bomb then
      regenLoop props shuffles rowIndex colIndex fuel (k + 1) (regenPair props (shuffles k))
    else bp

/-- The board/proximity pair `uncoverTile` actually reveals on: the snapshot's
own pair, except that with `movesCount == 0` the regeneration loop runs first. -/
def afterGuard (props : Settings) (shuffles : Nat → List Bool) (regenFuel : Nat)
    (rowIndex colIndex : Nat) (s : Snapshot) : List (List Tile) × List (List Nat) :=
  if s.movesCount = 0 then
    regenLoop props shuffles rowIndex colIndex regenFuel 0 (s.board, s.proximities)
  else (s.board, s.proximities)

/-- Function `copyBoard` of game.js: `board.map(row => row.slice())`, value-identical
to the board itself. -/
def copyBoard (board : List (List Tile)) : List (List Tile) :=
  board.map fun row => row

/-- The mutable state closed over by `uncoverInNewBoard`: the board being
written, the two counters and the `gameOver` flag. -/
structure FloodState where
  board : List (List Tile)
  uncoveredCount : Nat
  flagsCount : Int
  gameOver : Bool
  deriving DecidableEq, Repr

/-- The `allDirections.forEach` body of `uncoverInNewBoard`: fold the
(recursive) call `step` over the direction list, invoking it only on in-bounds
neighbors (`r < rows && r >= 0 && c < columns && c >= 0`). -/
def uncoverDirs (rows columns : Nat) (step : Nat → Nat → FloodState → FloodState)
    (rowIndex colIndex : Nat) :
    List (Int → Int → Int × Int) → FloodState → FloodState
  | [], st => st
  | f :: rest, st =>
    let rc := f (rowIndex : Int) (colIndex : Int)
    let st' :=
      if rc.1 < (rows : Int) ∧ 0 ≤ rc.1 ∧ rc.2 < (columns : Int) ∧ 0 ≤ rc.2 then
        step rc.1.toNat rc.2.toNat st
      else st
    uncoverDirs rows columns step rowIndex colIndex rest st'

/-- Function `uncoverInNewBoard` of game.js. The `fuel` bounds the recursion depth of the
JS function (which always terminates because every nested call first turns a
non-open tile open); callers pass `columns * rows + 1`, which dominates the
depth. -/
def uncoverStep (rows columns : Nat) (proximities : List (List Nat)) :
    Nat → Nat → Nat → FloodState → FloodState
  | 0, _, _, st => st
  | fuel + 1, rowIndex, colIndex, st =>
    if st.gameOver then st
    else
      let prevItem := tileAt st.board rowIndex colIndex
      let proximity := proxAt proximities rowIndex colIndex
      if prevItem.userState = UserState.opened then st
      else
        let newItem := changeItemToUncovered prevItem
        let board1 := setTile st.board rowIndex colIndex newItem
        if newItem.userState = UserState.hitBomb then
          { board := board1, uncoveredCount := st.uncoveredCount,
            flagsCount := st.flagsCount, gameOver := true }
        else
          let st1 : FloodState :=
            { board := board1
              uncoveredCount := st.uncoveredCount + 1
              flagsCount :=
                st.flagsCount - (if prevItem.userState = UserState.flag then 1 else 0)
              gameOver := false }
          if canExpandTile newItem proximity then
            uncoverDirs rows columns (uncoverStep rows columns proximities fuel)
              rowIndex colIndex allDirections st1
          else st1

/-- The flood-fill outcome of one `uncoverTile` call: the state of the closure
variables `newBoard`, `uncoveredCount`, `flagsCount`, `gameOver` after
`uncoverInNewBoard(rowIndex, colIndex)` returns. -/
def uncoverResultState (props : Settings) (shuffles : Nat → List Bool) (regenFuel : Nat)
    (rowIndex colIndex : Nat) (s : Snapshot) : FloodState :=
  let bp := afterGuard props shuffles regenFuel rowIndex colIndex s
  uncoverStep s.rows s.columns bp.2 (s.columns * s.rows + 1) rowIndex colIndex
    { board := copyBoard bp.1
      uncoveredCount := s.uncoveredCount
      flagsCount := s.flagsCount
      gameOver := false }

/-- Function `uncoverTile` of game.js. Returns `none` for the source's bare `return`
(no state change) when the game state is not playable; otherwise the returned
partial state is merged over the snapshot, leaving `columns`, `rows` and
`bombsCount` as they were. `props` are the difficulty settings the component
passes back into `restart` for first-move regeneration (`bombOdds` is consumed
only by the discarded `bombsCount` of the regenerated state, so it is unused
here). -/
def uncoverTile (props : Settings) (shuffles : Nat → List Bool) (regenFuel : Nat)
    (rowIndex colIndex : Nat) (s : Snapshot) : Option Snapshot :=
  if canPlayForGameState s.gameState then
    let bp := afterGuard props shuffles regenFuel rowIndex colIndex s
    let res := uncoverResultState props shuffles regenFuel rowIndex colIndex s
    some
      { gameState :=
          if res.gameOver then GameState.gameOver
          else if res.uncoveredCount + s.bombsCount = s.columns * s.rows then GameState.winner
          else GameState.playing
        columns := s.columns
        rows := s.rows
        board := res.board
        proximities := bp.2
        bombsCount := s.bombsCount
        uncoveredCount := res.uncoveredCount
        flagsCount := res.flagsCount
        movesCount := s.movesCount + 1 }
  else none

/-- Function `changeBoardItem` of game.js: map over the whole grid, applying
`changeItem` exactly at `(rowIndex, colIndex)`. -/
def changeBoardItem (board : List (List Tile)) (rowIndex colIndex : Nat)
    (changeItem : Tile → Tile) : List (List Tile) :=
  board.mapIdx fun currentRowIndex row =>
    row.mapIdx fun currentColIndex item =>
      if rowIndex = currentRowIndex ∧ colIndex = currentColIndex then changeItem item
      else item

/-- The per-tile change of `flagTile`: covered becomes flag, flag becomes
covered, anything else is untouched. -/
def flagItemChange (item : Tile) : Tile :=
  if item.userState = UserState.covered then { item with userState := UserState.flag }
  else if item.userState = UserState.flag then { item with userState := UserState.covered }
  else item

/-- The `noticeChange` counter adjustment of `flagTile` for the visited tile. -/
def flagItemDelta (item : Tile) : Int :=
  if item.userState = UserState.covered then 1
  else if item.userState = UserState.flag then -1
  else 0

/-- Function `flagTile` of game.js: the returned `{ board, flagsCount }` pair merged
over the snapshot. `noticeChange` fires exactly when the map visits the target
cell, i.e. when the coordinate is within the actual grid extents. -/
def flagTile (rowIndex colIndex : Nat) (s : Snapshot) : Snapshot :=
  { s with
    board := changeBoardItem s.board rowIndex colIndex flagItemChange
    flagsCount :=
      s.flagsCount +
        (if rowIndex < s.board.length ∧ colIndex < (s.board.getD rowIndex []).length then
          flagItemDelta (tileAt s.board rowIndex colIndex)
        else 0) }

/-- Number of bomb tiles on a board. -/
def bombTilesCount (board : List (List Tile)) : Nat :=
  (board.map fun row => (row.filter fun t => t.bombState == BombState.bomb).length).sum

/-- Number of tiles currently in the `flag` user state. -/
def flagTilesCount (board : List (List Tile)) : Nat :=
  (board.map fun row => (row.filter fun t => t.userState == UserState.flag).length).sum

/-- The board has exactly the snapshot's advertised rectangular dimensions. -/
def boardDims (rows columns : Nat) (board : List (List Tile)) : Prop :=
  board.length = rows ∧ ∀ r, r < rows → (board.getD r []).length = columns

/-- The proximity grid is consistent with the board: a proximity of 0 at an
in-bounds cell means none of that cell's in-bounds 8-neighbors holds a bomb. -/
def consistentProx (rows columns : Nat) (board : List (List Tile))
    (prox : List (List Nat)) : Prop :=
  ∀ r, r < rows → ∀ c, c < columns → proxAt prox r c = 0 →
    ∀ f ∈ allDirections,
      ((f (r : Int) (c : Int)).1 < (rows : Int) ∧ 0 ≤ (f (r : Int) (c : Int)).1 ∧
        (f (r : Int) (c : Int)).2 < (columns : Int) ∧ 0 ≤ (f (r : Int) (c : Int)).2) →
      (tileAt board (f (r : Int) (c : Int)).1.toNat
        (f (r : Int) (c : Int)).2.toNat).bombState = BombState.blank

instance (rows columns : Nat) (board : List (List Tile)) :
    Decidable (boardDims rows columns board) := by
  unfold boardDims
  infer_instance

instance (rows columns : Nat) (board : List (List Tile)) (prox : List (List Nat)) :
    Decidable (consistentProx rows columns board prox) := by
  unfold consistentProx
  infer_instance

/-! ### Auxiliary lemmas about the grid primitives -/

theorem tileAt_def (b : List (List Tile)) (r c : Nat) :
    tileAt b r c = ((b[r]?).getD [])[c]?.getD defaultTile := by
  unfold tileAt
  rw [List.getD_eq_getElem?_getD, List.getD_eq_getElem?_getD]

theorem tileAt_setTile_ne (b : List (List Tile)) (r c : Nat) (t : Tile) (r' c' : Nat)
    (h : ¬(r' = r ∧ c' = c)) :
    tileAt (setTile b r c t) r' c' = tileAt b r' c' := by
  rcases eq_or_ne r' r with hr | hr
  · subst hr
    have hc : c' ≠ c := fun hcc => h ⟨rfl, hcc⟩
    rw [tileAt_def, tileAt_def]
    unfold setTile
    rw [List.getElem?_set_self']
    rcases hbr : b[r']? with _ | row
    · rfl
    · have hrow : b.getD r' [] = row := by
        rw [List.getD_eq_getElem?_getD, hbr]; rfl
      simp only [Option.map_eq_map, Option.map_some', Option.getD_some, Function.const_apply, hrow]
      rw [List.getElem?_set_ne (Ne.symm hc)]
  · rw [tileAt_def, tileAt_def]
    unfold setTile
    rw [List.getElem?_set_ne (Ne.symm hr)]

theorem tileAt_setTile_self (b : List (List Tile)) (r c : Nat) (t : Tile)
    (hr : r < b.length) (hc : c < (b.getD r []).length) :
    tileAt (setTile b r c t) r c = t := by
  rw [tileAt_def]
  unfold setTile
  rw [List.getElem?_set_self']
  rcases hbr : b[r]? with _ | row
  · exact absurd (List.getElem?_eq_getElem hr) (by rw [hbr]; exact fun hh => by cases hh)
  · have hrow : b.getD r [] = row := by
      rw [List.getD_eq_getElem?_getD, hbr]; rfl
    simp only [Option.map_eq_map, Option.map_some', Option.getD_some, Function.const_apply, hrow]
    rw [hrow] at hc
    rw [List.getElem?_set_eq_of_lt t hc]
    rfl

theorem tileAt_setTile_self_oob (b : List (List Tile)) (r c : Nat) (t : Tile)
    (h : ¬(r < b.length ∧ c < (b.getD r []).length)) :
    tileAt (setTile b r c t) r c = tileAt b r c := by
  by_cases hr : r < b.length
  · have hc : ¬c < (b.getD r []).length := fun hcc => h ⟨hr, hcc⟩
    have hrow : (b.getD r []).set c t = b.getD r [] :=
      List.set_eq_of_length_le (Nat.le_of_not_lt hc)
    unfold setTile
    rw [hrow, tileAt_def, tileAt_def, List.getElem?_set_self']
    rcases hbr : b[r]? with _ | row
    · rfl
    · have hrow2 : b.getD r [] = row := by
        rw [List.getD_eq_getElem?_getD, hbr]; rfl
      simp only [Option.map_eq_map, Option.map_some', Option.getD_some, Function.const_apply, hrow2]
  · unfold setTile
    rw [List.set_eq_of_length_le (Nat.le_of_not_lt hr)]

theorem setTile_length (b : List (List Tile)) (r c : Nat) (t : Tile) :
    (setTile b r c t).length = b.length := by
  unfold setTile
  exact List.length_set b r ((b.getD r []).set c t)

theorem setTile_row_length (b : List (List Tile)) (r c : Nat) (t : Tile) (r' : Nat) :
    ((setTile b r c t).getD r' []).length = (b.getD r' []).length := by
  unfold setTile
  rcases eq_or_ne r' r with hr | hr
  · subst hr
    rw [List.getD_eq_getElem?_getD, List.getD_eq_getElem?_getD, List.getElem?_set_self']
    rcases hbr : b[r']? with _ | row
    · rfl
    · simp only [Option.map_eq_map, Option.map_some', Option.getD_some, Function.const_apply,
        List.length_set]
  · rw [List.getD_eq_getElem?_getD, List.getD_eq_getElem?_getD,
      List.getElem?_set_ne (Ne.symm hr)]
    rw [List.getD_eq_getElem?_getD]

theorem boardDims_setTile (rows columns : Nat) (b : List (List Tile)) (r c : Nat) (t : Tile)
    (h : boardDims rows columns b) : boardDims rows columns (setTile b r c t) := by
  refine ⟨?_, ?_⟩
  · rw [setTile_length]; exact h.1
  · intro r' hr'
    rw [setTile_row_length]; exact h.2 r' hr'

theorem changeItemToUncovered_bombState (i : Tile) :
    (changeItemToUncovered i).bombState = i.bombState := by
  unfold changeItemToUncovered
  split <;> rfl

theorem changeItemToUncovered_blank (i : Tile) (h : i.bombState = BombState.blank) :
    changeItemToUncovered i = { i with userState := UserState.opened } := by
  unfold changeItemToUncovered
  rw [h]
  simp

theorem changeItemToUncovered_bomb (i : Tile) (h : i.bombState = BombState.bomb) :
    changeItemToUncovered i = { i with userState := UserState.hitBomb } := by
  unfold changeItemToUncovered
  rw [h]
  simp

theorem copyBoard_eq (b : List (List Tile)) : copyBoard b = b := by
  unfold copyBoard
  simp

theorem bombState_tileAt_setTile (b : List (List Tile)) (r c : Nat) (t : Tile)
    (ht : t.bombState = (tileAt b r c).bombState) (r' c' : Nat) :
    (tileAt (setTile b r c t) r' c').bombState = (tileAt b r' c').bombState := by
  by_cases h : r' = r ∧ c' = c
  · obtain ⟨h1, h2⟩ := h
    subst h1; subst h2
    by_cases hin : r' < b.length ∧ c' < (b.getD r' []).length
    · rw [tileAt_setTile_self b r' c' t hin.1 hin.2, ht]
    · rw [tileAt_setTile_self_oob b r' c' t hin]
  · rw [tileAt_setTile_ne b r c t r' c' h]

theorem getD_range_map {β : Type} (n : Nat) (g : Nat → β) (d : β) (r : Nat) (hr : r < n) :
    ((List.range n).map g).getD r d = g r := by
  rw [List.getD_eq_getElem?_getD, List.getElem?_map, List.getElem?_range hr]
  rfl

theorem restartBoard_dims (columns rows : Nat) (sb : List Bool) :
    boardDims rows columns (restartBoard columns rows sb) := by
  unfold restartBoard boardDims
  constructor
  · simp
  · intro r hr
    rw [getD_range_map _ _ _ r hr]
    simp

theorem proxAt_countProximities (b : List (List Tile)) (r c : Nat)
    (hr : r < b.length) (hc : c < (b.getD r []).length) :
    proxAt (countProximities b) r c =
      (allDirections.filter fun f =>
        hasBombAt b (f (r : Int) (c : Int)).1 (f (r : Int) (c : Int)).2).length := by
  unfold countProximities proxAt
  rw [getD_range_map _ _ _ r hr, getD_range_map _ _ _ c hc]

theorem countProximities_consistent (rows columns : Nat) (b : List (List Tile))
    (hdim : boardDims rows columns b) :
    consistentProx rows columns b (countProximities b) := by
  intro r hr c hc h0 f hf hin
  have hrb : r < b.length := by rw [hdim.1]; exact hr
  have hcb : c < (b.getD r []).length := by rw [hdim.2 r hr]; exact hc
  rw [proxAt_countProximities b r c hrb hcb] at h0
  have hnil := List.length_eq_zero.mp h0
  have hnotbomb :
      ¬ hasBombAt b (f (r : Int) (c : Int)).1 (f (r : Int) (c : Int)).2 = true := by
    intro hbomb
    have hmem : f ∈ List.filter
        (fun f => hasBombAt b (f (r : Int) (c : Int)).1 (f (r : Int) (c : Int)).2)
        allDirections := List.mem_filter.mpr ⟨hf, hbomb⟩
    rw [hnil] at hmem
    cases hmem
  obtain ⟨h1, h2, h3, h4⟩ := hin
  have hrn : (f (r : Int) (c : Int)).1.toNat < rows := (Int.toNat_lt h2).mpr h1
  have hcn : (f (r : Int) (c : Int)).2.toNat < columns := (Int.toNat_lt h4).mpr h3
  have hlen1 : (f (r : Int) (c : Int)).1 < (b.length : Int) := by rw [hdim.1]; exact h1
  have hlen2 : (f (r : Int) (c : Int)).2 <
      (((b.getD (f (r : Int) (c : Int)).1.toNat []).length : Nat) : Int) := by
    rw [hdim.2 _ hrn]; exact h3
  unfold hasBombAt at hnotbomb
  simp only [Bool.and_eq_true, decide_eq_true_eq, beq_iff_eq, not_and] at hnotbomb
  have hne := hnotbomb ⟨⟨⟨h2, h4⟩, hlen1⟩, hlen2⟩
  cases hstate : (tileAt b (f (r : Int) (c : Int)).1.toNat
      (f (r : Int) (c : Int)).2.toNat).bombState
  · rfl
  · exact absurd hstate hne

theorem regenLoop_cases (props : Settings) (shuffles : Nat → List Bool) (r c : Nat) :
    ∀ fuel k bp, regenLoop props shuffles r c fuel k bp = bp ∨
      ∃ j, regenLoop props shuffles r c fuel k bp = regenPair props (shuffles j) := by
  intro fuel
  induction fuel with
  | zero => intro k bp; exact Or.inl rfl
  | succ n ih =>
    intro k bp
    rw [regenLoop]
    by_cases hb : (tileAt bp.1 r c).bombState = BombState.bomb
    · rw [if_pos hb]
      rcases ih (k + 1) (regenPair props (shuffles k)) with h | ⟨j, hj⟩
      · exact Or.inr ⟨k, h⟩
      · exact Or.inr ⟨j, hj⟩
    · rw [if_neg hb]
      exact Or.inl rfl

theorem regenLoop_not_bomb (props : Settings) (shuffles : Nat → List Bool) (r c : Nat) :
    ∀ fuel k bp,
      ((tileAt bp.1 r c).bombState ≠ BombState.bomb ∨
        ∃ j, j < fuel ∧
          (tileAt (regenPair props (shuffles (k + j))).1 r c).bombState ≠ BombState.bomb) →
      (tileAt (regenLoop props shuffles r c fuel k bp).1 r c).bombState ≠ BombState.bomb := by
  intro fuel
  induction fuel with
  | zero =>
    intro k bp h
    rcases h with h | ⟨j, hj, _⟩
    · exact h
    · omega
  | succ n ih =>
    intro k bp h
    rw [regenLoop]
    by_cases hb : (tileAt bp.1 r c).bombState = BombState.bomb
    · rw [if_pos hb]
      apply ih (k + 1)
      rcases h with h | ⟨j, hj, hgood⟩
      · exact absurd hb h
      · rcases j with _ | j
        · exact Or.inl (by simpa using hgood)
        · refine Or.inr ⟨j, by omega, ?_⟩
          have hkj : k + 1 + j = k + (j + 1) := by omega
          rw [hkj]
          exact hgood
    · rw [if_neg hb]
      exact hb

theorem regenPair_dims (props : Settings) (sb : List Bool) :
    boardDims props.rows props.columns (regenPair props sb).1 :=
  restartBoard_dims props.columns props.rows sb

theorem regenPair_prox (props : Settings) (sb : List Bool) :
    (regenPair props sb).2 = countProximities (regenPair props sb).1 := rfl

theorem hitBomb_setTile (b : List (List Tile)) (r c : Nat) (t : Tile)
    (ht : t.userState ≠ UserState.hitBomb) (r' c' : Nat)
    (h : (tileAt (setTile b r c t) r' c').userState = UserState.hitBomb) :
    (tileAt b r' c').userState = UserState.hitBomb := by
  by_cases heq : r' = r ∧ c' = c
  · obtain ⟨e1, e2⟩ := heq
    subst e1; subst e2
    by_cases hinb : r' < b.length ∧ c' < (b.getD r' []).length
    · rw [tileAt_setTile_self _ _ _ _ hinb.1 hinb.2] at h
      exact absurd h ht
    · rw [tileAt_setTile_self_oob _ _ _ _ hinb] at h
      exact h
  · rw [tileAt_setTile_ne _ _ _ _ _ _ heq] at h
    exact h

theorem opened_setTile (b : List (List Tile)) (r c : Nat) (t : Tile)
    (hprev : (tileAt b r c).userState ≠ UserState.opened) (r' c' : Nat)
    (h : (tileAt b r' c').userState = UserState.opened) :
    (tileAt (setTile b r c t) r' c').userState = UserState.opened := by
  by_cases heq : r' = r ∧ c' = c
  · obtain ⟨e1, e2⟩ := heq
    subst e1; subst e2
    exact absurd h hprev
  · rw [tileAt_setTile_ne _ _ _ _ _ _ heq]
    exact h

theorem uncoverDirs_bombState (rows columns : Nat)
    (step : Nat → Nat → FloodState → FloodState)
    (hstep : ∀ rr cc st r' c',
      (tileAt (step rr cc st).board r' c').bombState = (tileAt st.board r' c').bombState) :
    ∀ dirs rowIndex colIndex st r' c',
      (tileAt (uncoverDirs rows columns step rowIndex colIndex dirs st).board r' c').bombState
        = (tileAt st.board r' c').bombState := by
  intro dirs
  induction dirs with
  | nil => intro ri ci st r' c'; rfl
  | cons f rest ih =>
    intro ri ci st r' c'
    simp only [uncoverDirs]
    rw [ih]
    by_cases hin : (f (ri : Int) (ci : Int)).1 < (rows : Int) ∧ 0 ≤ (f (ri : Int) (ci : Int)).1 ∧
        (f (ri : Int) (ci : Int)).2 < (columns : Int) ∧ 0 ≤ (f (ri : Int) (ci : Int)).2
    · rw [if_pos hin, hstep]
    · rw [if_neg hin]

theorem uncoverStep_bombState (rows columns : Nat) (P : List (List Nat)) :
    ∀ fuel rowIndex colIndex st r' c',
      (tileAt (uncoverStep rows columns P fuel rowIndex colIndex st).board r' c').bombState
        = (tileAt st.board r' c').bombState := by
  intro fuel
  induction fuel with
  | zero => intro ri ci st r' c'; rfl
  | succ n ih =>
    intro ri ci st r' c'
    simp only [uncoverStep]
    by_cases hgo : st.gameOver = true
    · rw [if_pos hgo]
    · rw [if_neg hgo]
      by_cases hop : (tileAt st.board ri ci).userState = UserState.opened
      · rw [if_pos hop]
      · rw [if_neg hop]
        by_cases hhit :
            (changeItemToUncovered (tileAt st.board ri ci)).userState = UserState.hitBomb
        · rw [if_pos hhit]
          exact bombState_tileAt_setTile _ _ _ _ (changeItemToUncovered_bombState _) r' c'
        · rw [if_neg hhit]
          by_cases hexp : canExpandTile (changeItemToUncovered (tileAt st.board ri ci))
              (proxAt P ri ci) = true
          · rw [if_pos hexp]
            rw [uncoverDirs_bombState rows columns _ ih allDirections ri ci _ r' c']
            exact bombState_tileAt_setTile _ _ _ _ (changeItemToUncovered_bombState _) r' c'
          · rw [if_neg hexp]
            exact bombState_tileAt_setTile _ _ _ _ (changeItemToUncovered_bombState _) r' c'

theorem uncoverDirs_opened (rows columns : Nat)
    (step : Nat → Nat → FloodState → FloodState)
    (hstep : ∀ rr cc st r' c',
      (tileAt st.board r' c').userState = UserState.opened →
      (tileAt (step rr cc st).board r' c').userState = UserState.opened) :
    ∀ dirs rowIndex colIndex st r' c',
      (tileAt st.board r' c').userState = UserState.opened →
      (tileAt (uncoverDirs rows columns step rowIndex colIndex dirs st).board r' c').userState
        = UserState.opened := by
  intro dirs
  induction dirs with
  | nil => intro ri ci st r' c' h; exact h
  | cons f rest ih =>
    intro ri ci st r' c' h
    simp only [uncoverDirs]
    apply ih
    by_cases hin : (f (ri : Int) (ci : Int)).1 < (rows : Int) ∧ 0 ≤ (f (ri : Int) (ci : Int)).1 ∧
        (f (ri : Int) (ci : Int)).2 < (columns : Int) ∧ 0 ≤ (f (ri : Int) (ci : Int)).2
    · rw [if_pos hin]
      exact hstep _ _ st r' c' h
    · rw [if_neg hin]
      exact h

theorem uncoverStep_opened (rows columns : Nat) (P : List (List Nat)) :
    ∀ fuel rowIndex colIndex st r' c',
      (tileAt st.board r' c').userState = UserState.opened →
      (tileAt (uncoverStep rows columns P fuel rowIndex colIndex st).board r' c').userState
        = UserState.opened := by
  intro fuel
  induction fuel with
  | zero => intro ri ci st r' c' h; exact h
  | succ n ih =>
    intro ri ci st r' c' h
    simp only [uncoverStep]
    by_cases hgo : st.gameOver = true
    · rw [if_pos hgo]; exact h
    · rw [if_neg hgo]
      by_cases hop : (tileAt st.board ri ci).userState = UserState.opened
      · rw [if_pos hop]; exact h
      · rw [if_neg hop]
        by_cases hhit :
            (changeItemToUncovered (tileAt st.board ri ci)).userState = UserState.hitBomb
        · rw [if_pos hhit]
          exact opened_setTile _ _ _ _ hop r' c' h
        · rw [if_neg hhit]
          by_cases hexp : canExpandTile (changeItemToUncovered (tileAt st.board ri ci))
              (proxAt P ri ci) = true
          · rw [if_pos hexp]
            exact uncoverDirs_opened rows columns _ ih allDirections ri ci _ r' c'
              (opened_setTile _ _ _ _ hop r' c' h)
          · rw [if_neg hexp]
            exact opened_setTile _ _ _ _ hop r' c' h

theorem uncoverDirs_safe (rows columns : Nat) (B : List (List Tile))
    (step : Nat → Nat → FloodState → FloodState)
    (hstepB : ∀ rr cc st r' c',
      (tileAt (step rr cc st).board r' c').bombState = (tileAt st.board r' c').bombState)
    (hstep : ∀ rr cc st,
      (∀ r' c', (tileAt st.board r' c').bombState = (tileAt B r' c').bombState) →
      st.gameOver = false → rr < rows → cc < columns →
      (tileAt B rr cc).bombState = BombState.blank →
      (step rr cc st).gameOver = false ∧
        ∀ r' c', (tileAt (step rr cc st).board r' c').userState = UserState.hitBomb →
          (tileAt st.board r' c').userState = UserState.hitBomb) :
    ∀ dirs rowIndex colIndex st,
      (∀ r' c', (tileAt st.board r' c').bombState = (tileAt B r' c').bombState) →
      st.gameOver = false →
      (∀ f ∈ dirs,
        ((f (rowIndex : Int) (colIndex : Int)).1 < (rows : Int) ∧
          0 ≤ (f (rowIndex : Int) (colIndex : Int)).1 ∧
          (f (rowIndex : Int) (colIndex : Int)).2 < (columns : Int) ∧
          0 ≤ (f (rowIndex : Int) (colIndex : Int)).2) →
        (tileAt B (f (rowIndex : Int) (colIndex : Int)).1.toNat
          (f (rowIndex : Int) (colIndex : Int)).2.toNat).bombState = BombState.blank) →
      (uncoverDirs rows columns step rowIndex colIndex dirs st).gameOver = false ∧
        ∀ r' c',
          (tileAt (uncoverDirs rows columns step rowIndex colIndex dirs st).board r' c').userState
            = UserState.hitBomb →
          (tileAt st.board r' c').userState = UserState.hitBomb := by
  intro dirs
  induction dirs with
  | nil => intro ri ci st hB hgo _; exact ⟨hgo, fun _ _ h => h⟩
  | cons f rest ih =>
    intro ri ci st hB hgo hdirs
    simp only [uncoverDirs]
    by_cases hin : (f (ri : Int) (ci : Int)).1 < (rows : Int) ∧ 0 ≤ (f (ri : Int) (ci : Int)).1 ∧
        (f (ri : Int) (ci : Int)).2 < (columns : Int) ∧ 0 ≤ (f (ri : Int) (ci : Int)).2
    · rw [if_pos hin]
      have hblank := hdirs f (List.mem_cons_self f rest) hin
      have hrr : (f (ri : Int) (ci : Int)).1.toNat < rows := (Int.toNat_lt hin.2.1).mpr hin.1
      have hcc : (f (ri : Int) (ci : Int)).2.toNat < columns :=
        (Int.toNat_lt hin.2.2.2).mpr hin.2.2.1
      obtain ⟨hgo1, hnb1⟩ := hstep _ _ st hB hgo hrr hcc hblank
      have hB1 : ∀ r' c',
          (tileAt (step (f (ri : Int) (ci : Int)).1.toNat (f (ri : Int) (ci : Int)).2.toNat
            st).board r' c').bombState = (tileAt B r' c').bombState :=
        fun r' c' => (hstepB _ _ st r' c').trans (hB r' c')
      obtain ⟨hgo2, hnb2⟩ := ih ri ci _ hB1 hgo1
        (fun g hg hgin => hdirs g (List.mem_cons_of_mem f hg) hgin)
      exact ⟨hgo2, fun r' c' h => hnb1 r' c' (hnb2 r' c' h)⟩
    · rw [if_neg hin]
      exact ih ri ci st hB hgo (fun g hg hgin => hdirs g (List.mem_cons_of_mem f hg) hgin)

theorem uncoverStep_safe (rows columns : Nat) (P : List (List Nat)) (B : List (List Tile))
    (hcons : consistentProx rows columns B P) :
    ∀ fuel rowIndex colIndex st,
      (∀ r' c', (tileAt st.board r' c').bombState = (tileAt B r' c').bombState) →
      st.gameOver = false → rowIndex < rows → colIndex < columns →
      (tileAt B rowIndex colIndex).bombState = BombState.blank →
      (uncoverStep rows columns P fuel rowIndex colIndex st).gameOver = false ∧
        ∀ r' c',
          (tileAt (uncoverStep rows columns P fuel rowIndex colIndex st).board r' c').userState
            = UserState.hitBomb →
          (tileAt st.board r' c').userState = UserState.hitBomb := by
  intro fuel
  induction fuel with
  | zero => intro ri ci st hB hgo _ _ _; exact ⟨hgo, fun _ _ h => h⟩
  | succ n ih =>
    intro ri ci st hB hgo hri hci hblank
    have hgo' : ¬st.gameOver = true := by rw [hgo]; exact Bool.false_ne_true
    simp only [uncoverStep]
    rw [if_neg hgo']
    by_cases hop : (tileAt st.board ri ci).userState = UserState.opened
    · rw [if_pos hop]
      exact ⟨hgo, fun _ _ h => h⟩
    · rw [if_neg hop]
      have hprevblank : (tileAt st.board ri ci).bombState = BombState.blank := by
        rw [hB ri ci]; exact hblank
      have hnew := changeItemToUncovered_blank _ hprevblank
      have hnothit :
          ¬(changeItemToUncovered (tileAt st.board ri ci)).userState = UserState.hitBomb := by
        rw [hnew]
        intro hcon
        cases hcon
      rw [if_neg hnothit]
      have hnbset : ∀ r' c',
          (tileAt (setTile st.board ri ci (changeItemToUncovered (tileAt st.board ri ci)))
            r' c').userState = UserState.hitBomb →
          (tileAt st.board r' c').userState = UserState.hitBomb :=
        fun r' c' h => hitBomb_setTile _ _ _ _ hnothit r' c' h
      have hBset : ∀ r' c',
          (tileAt (setTile st.board ri ci (changeItemToUncovered (tileAt st.board ri ci)))
            r' c').bombState = (tileAt B r' c').bombState :=
        fun r' c' =>
          (bombState_tileAt_setTile _ _ _ _ (changeItemToUncovered_bombState _) r' c').trans
            (hB r' c')
      by_cases hexp : canExpandTile (changeItemToUncovered (tileAt st.board ri ci))
          (proxAt P ri ci) = true
      · rw [if_pos hexp]
        have hprox : proxAt P ri ci = 0 := by
          simp only [canExpandTile, Bool.and_eq_true, beq_iff_eq] at hexp
          exact hexp.2
        have hdirs : ∀ f ∈ allDirections,
            ((f (ri : Int) (ci : Int)).1 < (rows : Int) ∧ 0 ≤ (f (ri : Int) (ci : Int)).1 ∧
              (f (ri : Int) (ci : Int)).2 < (columns : Int) ∧
              0 ≤ (f (ri : Int) (ci : Int)).2) →
            (tileAt B (f (ri : Int) (ci : Int)).1.toNat
              (f (ri : Int) (ci : Int)).2.toNat).bombState = BombState.blank :=
          fun f hf hfin => hcons ri hri ci hci hprox f hf hfin
        obtain ⟨hgo2, hnb2⟩ :=
          uncoverDirs_safe rows columns B (uncoverStep rows columns P n)
            (uncoverStep_bombState rows columns P n) ih allDirections ri ci
            { board := setTile st.board ri ci (changeItemToUncovered (tileAt st.board ri ci))
              uncoveredCount := st.uncoveredCount + 1
              flagsCount := st.flagsCount -
                (if (tileAt st.board ri ci).userState = UserState.flag then 1 else 0)
              gameOver := false }
            hBset rfl hdirs
        exact ⟨hgo2, fun r' c' h => hnbset r' c' (hnb2 r' c' h)⟩
      · rw [if_neg hexp]
        exact ⟨rfl, hnbset⟩

theorem uncoverStep_target_opened (rows columns : Nat) (P : List (List Nat))
    (n : Nat) (rowIndex colIndex : Nat) (st : FloodState)
    (hgo : st.gameOver = false)
    (hblank : (tileAt st.board rowIndex colIndex).bombState = BombState.blank)
    (hr : rowIndex < st.board.length) (hc : colIndex < (st.board.getD rowIndex []).length) :
    (tileAt (uncoverStep rows columns P (n + 1) rowIndex colIndex st).board
      rowIndex colIndex).userState = UserState.opened := by
  have hgo' : ¬st.gameOver = true := by rw [hgo]; exact Bool.false_ne_true
  simp only [uncoverStep]
  rw [if_neg hgo']
  by_cases hop : (tileAt st.board rowIndex colIndex).userState = UserState.opened
  · rw [if_pos hop]
    exact hop
  · rw [if_neg hop]
    have hnew := changeItemToUncovered_blank _ hblank
    have hnothit :
        ¬(changeItemToUncovered (tileAt st.board rowIndex colIndex)).userState
          = UserState.hitBomb := by
      rw [hnew]
      intro hcon
      cases hcon
    rw [if_neg hnothit]
    have hst1 : (tileAt (setTile st.board rowIndex colIndex
        (changeItemToUncovered (tileAt st.board rowIndex colIndex)))
        rowIndex colIndex).userState = UserState.opened := by
      rw [tileAt_setTile_self _ _ _ _ hr hc, hnew]
    by_cases hexp : canExpandTile (changeItemToUncovered (tileAt st.board rowIndex colIndex))
        (proxAt P rowIndex colIndex) = true
    · rw [if_pos hexp]
      exact uncoverDirs_opened rows columns _ (uncoverStep_opened rows columns P n)
        allDirections rowIndex colIndex _ rowIndex colIndex hst1
    · rw [if_neg hexp]
      exact hst1

theorem tileAt_changeBoardItem_self (b : List (List Tile)) (r c : Nat) (g : Tile → Tile)
    (hr : r < b.length) (hc : c < (b.getD r []).length) :
    tileAt (changeBoardItem b r c g) r c = g (tileAt b r c) := by
  rw [tileAt_def, tileAt_def]
  unfold changeBoardItem
  rw [List.getElem?_mapIdx]
  rcases hbr : b[r]? with _ | row
  · rw [List.getElem?_eq_none_iff] at hbr
    omega
  · have hrow : b.getD r [] = row := by
      rw [List.getD_eq_getElem?_getD, hbr]; rfl
    rw [hrow] at hc
    simp only [Option.map_some', Option.getD_some]
    rw [List.getElem?_mapIdx]
    rcases hrc : row[c]? with _ | item
    · rw [List.getElem?_eq_none_iff] at hrc
      omega
    · simp

theorem tileAt_changeBoardItem_ne (b : List (List Tile)) (r c : Nat) (g : Tile → Tile)
    (r' c' : Nat) (h : ¬(r = r' ∧ c = c')) :
    tileAt (changeBoardItem b r c g) r' c' = tileAt b r' c' := by
  rw [tileAt_def, tileAt_def]
  unfold changeBoardItem
  rw [List.getElem?_mapIdx]
  rcases hbr : b[r']? with _ | row
  · rfl
  · simp only [Option.map_some', Option.getD_some]
    rw [List.getElem?_mapIdx]
    rcases hrc : row[c']? with _ | item
    · rfl
    · simp only [Option.map_some', Option.getD_some]
      rw [if_neg h]

theorem changeBoardItem_length (b : List (List Tile)) (r c : Nat) (g : Tile → Tile) :
    (changeBoardItem b r c g).length = b.length := by
  unfold changeBoardItem
  exact List.length_mapIdx

theorem changeBoardItem_row_length (b : List (List Tile)) (r c : Nat) (g : Tile → Tile)
    (r' : Nat) :
    ((changeBoardItem b r c g).getD r' []).length = (b.getD r' []).length := by
  unfold changeBoardItem
  rw [List.getD_eq_getElem?_getD, List.getD_eq_getElem?_getD, List.getElem?_mapIdx]
  rcases hbr : b[r']? with _ | row
  · rfl
  · simp only [Option.map_some', Option.getD_some, List.length_mapIdx]

/-! ### Arithmetic of the bomb count at the concrete difficulty settings used below -/

theorem bombsCountOf_c1_r2_full : bombsCountOf 1 2 1 = 2 := by
  have h1 : (1 : ℚ) * ((1 * 2 : Nat) : ℚ) + 1 / 2 = 5 / 2 := by norm_num
  have h2 : Int.floor ((5 : ℚ) / 2) = 2 := by
    rw [Int.floor_eq_iff]
    norm_num
  unfold bombsCountOf mathRound
  rw [h1, h2]
  rfl

theorem bombsCountOf_c2_r2_quarter : bombsCountOf 2 2 (1 / 4) = 1 := by
  have h1 : (1 / 4 : ℚ) * ((2 * 2 : Nat) : ℚ) + 1 / 2 = 3 / 2 := by norm_num
  have h2 : Int.floor ((3 : ℚ) / 2) = 1 := by
    rw [Int.floor_eq_iff]
    norm_num
  unfold bombsCountOf mathRound
  rw [h1, h2]
  rfl

theorem tile_userState_eta (t : Tile) (u : UserState) (h : t.userState = u) :
    { t with userState := u } = t := by
  obtain ⟨bs, us⟩ := t
  cases h
  rfl

theorem changeBoardItem_eq_self (b : List (List Tile)) (r c : Nat) (g : Tile → Tile)
    (h : g (tileAt b r c) = tileAt b r c) : changeBoardItem b r c g = b := by
  unfold changeBoardItem
  apply List.ext_getElem?
  intro i
  rw [List.getElem?_mapIdx]
  rcases hbi : b[i]? with _ | row
  · rfl
  · simp only [Option.map_some']
    congr 1
    apply List.ext_getElem?
    intro j
    rw [List.getElem?_mapIdx]
    rcases hrj : row[j]? with _ | item
    · rfl
    · simp only [Option.map_some']
      by_cases hij : r = i ∧ c = j
    
      · obtain ⟨e1, e2⟩ := hij
        subst e1
        subst e2
        have hitem : item = tileAt b r c := by
          rw [tileAt_def, hbi]
          simp only [Option.getD_some]
          rw [hrj]
          rfl
        rw [hitem, h]
        simp
      · rw [if_neg hij]

/-- Both components of the pair the reveal runs on keep the consistency
invariant: either the loop returned the snapshot's own pair, or a freshly
generated pair whose proximities were just computed from its board. -/
theorem afterGuard_consistent (props : Settings) (shuffles : Nat → List Bool)
    (regenFuel : Nat) (rowIndex colIndex : Nat) (s : Snapshot)
    (hpc : props.columns = s.columns) (hpr : props.rows = s.rows)
    (hcons : consistentProx s.rows s.columns s.board s.proximities) :
    consistentProx s.rows s.columns
      (afterGuard props shuffles regenFuel rowIndex colIndex s).1
      (afterGuard props shuffles regenFuel rowIndex colIndex s).2 := by
  unfold afterGuard
  by_cases hm : s.movesCount = 0
  · rw [if_pos hm]
    rcases regenLoop_cases props shuffles rowIndex colIndex regenFuel 0 (s.board, s.proximities)
      with h | ⟨j, hj⟩
    · rw [h]
      exact hcons
    · rw [hj]
      have hd := regenPair_dims props (shuffles j)
      rw [hpc, hpr] at hd
      rw [regenPair_prox]
      exact countProximities_consistent _ _ _ hd
  · rw [if_neg hm]
    exact hcons

theorem afterGuard_dims (props : Settings) (shuffles : Nat → List Bool)
    (regenFuel : Nat) (rowIndex colIndex : Nat) (s : Snapshot)
    (hpc : props.columns = s.columns) (hpr : props.rows = s.rows)
    (hdims : boardDims s.rows s.columns s.board) :
    boardDims s.rows s.columns (afterGuard props shuffles regenFuel rowIndex colIndex s).1 := by
  unfold afterGuard
  by_cases hm : s.movesCount = 0
  · rw [if_pos hm]
    rcases regenLoop_cases props shuffles rowIndex colIndex regenFuel 0 (s.board, s.proximities)
      with h | ⟨j, hj⟩
    · rw [h]
      exact hdims
    · rw [hj]
      have hd := regenPair_dims props (shuffles j)
      rw [hpc, hpr] at hd
      exact hd
  · rw [if_neg hm]
    exact hdims

/-! ### Claim theorems -/

/-- Claim C1 (code bug): the spec requires exactly `round(bombOdds*columns*rows)`
bomb tiles, the markers being assigned in row-major order (marker number
`rowIndex * columns + columnIndex`). The source indexes the shuffled list with
`rowIndex * rows + columnIndex` instead, so at `columns = 1`, `rows = 2`,
`bombOdds = 1` (where the shuffled marker multiset is necessarily
`[true, true]`, every marker a bomb), the generated board holds only 1 bomb
tile while `bombsCount` is 2: cell `(1, 0)` reads marker index 2, which is out
of range and therefore blank. -/
theorem C1_bombCount_mismatch :
    bombTilesCount (restart 1 2 1 [true, true]).board = 1 ∧
      (restart 1 2 1 [true, true]).bombsCount = 2 := by
  constructor
  · decide
  · exact bombsCountOf_c1_r2_full

/-- Claim C5 (code bug): on the same mis-indexed board (`columns = 1`,
`rows = 2`, `bombOdds = 1`) cell `(1, 0)` is blank although `bombsCount = 2`,
so the very first reveal at `(1, 0)` drives `uncoveredCount` to 1 while
`columns * rows - bombsCount = 0`, violating the invariant. -/
theorem C5_uncoveredCount_bound_bug :
    (uncoverTile ⟨1, 2, 1⟩ (fun _ => []) 0 1 0 (restart 1 2 1 [true, true])).map
      (fun s2 => (s2.uncoveredCount, s2.columns * s2.rows - s2.bombsCount)) = some (1, 0) := by
  simp only [restart, bombsCountOf_c1_r2_full]
  decide

/-- Claim C8: when the game state is outside the playable set
{fresh, playing, beginningMove} - that is, gameOver, winner or restarting -
`uncoverTile` returns no change at all (the source's bare `return`). -/
theorem C8_unplayable_noop (props : Settings) (shuffles : Nat → List Bool)
    (regenFuel : Nat) (rowIndex colIndex : Nat) (s : Snapshot)
    (h : s.gameState = GameState.gameOver ∨ s.gameState = GameState.winner ∨
      s.gameState = GameState.restarting) :
    uncoverTile props shuffles regenFuel rowIndex colIndex s = none := by
  have hstate : canPlayForGameState s.gameState = false := by
    rcases h with h | h | h <;> rw [h] <;> rfl
  simp only [uncoverTile]
  rw [if_neg]
  rw [hstate]
  exact Bool.false_ne_true

def wonSnapshot : Snapshot :=
  ⟨GameState.winner, 1, 1, [[⟨BombState.blank, UserState.opened⟩]], [[0]], 0, 1, 0, 1⟩

theorem C8_unplayable_noop_witness :
    (wonSnapshot.gameState = GameState.gameOver ∨ wonSnapshot.gameState = GameState.winner ∨
      wonSnapshot.gameState = GameState.restarting) ∧
    uncoverTile ⟨1, 1, 0⟩ (fun _ => []) 0 0 0 wonSnapshot = none :=
  ⟨Or.inr (Or.inl rfl),
    C8_unplayable_noop ⟨1, 1, 0⟩ (fun _ => []) 0 0 0 wonSnapshot (Or.inr (Or.inl rfl))⟩

def openedSnapshot : Snapshot :=
  ⟨GameState.playing, 1, 1, [[⟨BombState.blank, UserState.opened⟩]], [[0]], 0, 1, 0, 1⟩

/-- Claim C3 counterexample: revealing an already-open tile is NOT free of
counter changes as claimed, because `uncoverTile` always returns
`movesCount + 1`. On a playable 1-by-1 snapshot whose only tile is open and
whose `movesCount` is 1 (a second reveal of that tile), the returned snapshot
has `movesCount` 2. -/
theorem C3_counterexample_movesCount :
    (uncoverTile ⟨1, 1, 0⟩ (fun _ => []) 0 0 0 openedSnapshot).map Snapshot.movesCount
        = some 2 ∧
      openedSnapshot.movesCount = 1 := by
  decide

/-- Claim C3, amended: re-revealing an in-bounds already-open tile on a later
move (`movesCount ≠ 0`, as is the case for any second reveal) changes neither
the board nor `uncoveredCount` nor `flagsCount`, and leaves the proximities in
place - but `movesCount` still increments by one, and the game state is
recomputed from the unchanged counters. -/
theorem C3_reveal_opened_noop (props : Settings) (shuffles : Nat → List Bool)
    (regenFuel : Nat) (rowIndex colIndex : Nat) (s : Snapshot)
    (hplay : canPlayForGameState s.gameState = true)
    (hm : s.movesCount ≠ 0)
    (hr : rowIndex < s.rows) (hc : colIndex < s.columns)
    (hopen : (tileAt s.board rowIndex colIndex).userState = UserState.opened) :
    uncoverTile props shuffles regenFuel rowIndex colIndex s = some
      { gameState :=
          if s.uncoveredCount + s.bombsCount = s.columns * s.rows then GameState.winner
          else GameState.playing
        columns := s.columns
        rows := s.rows
        board := s.board
        proximities := s.proximities
        bombsCount := s.bombsCount
        uncoveredCount := s.uncoveredCount
        flagsCount := s.flagsCount
        movesCount := s.movesCount + 1 } := by
  have hguard : afterGuard props shuffles regenFuel rowIndex colIndex s =
      (s.board, s.proximities) := by
    unfold afterGuard
    rw [if_neg hm]
  have hres0 : uncoverResultState props shuffles regenFuel rowIndex colIndex s =
      uncoverStep s.rows s.columns s.proximities (s.columns * s.rows + 1) rowIndex colIndex
        { board := copyBoard s.board, uncoveredCount := s.uncoveredCount,
          flagsCount := s.flagsCount, gameOver := false } := by
    unfold uncoverResultState
    rw [hguard]
  have hres : uncoverResultState props shuffles regenFuel rowIndex colIndex s =
      { board := s.board, uncoveredCount := s.uncoveredCount,
        flagsCount := s.flagsCount, gameOver := false } := by
    rw [hres0, copyBoard_eq]
    simp only [uncoverStep]
    simp [hopen]
  simp only [uncoverTile]
  rw [if_pos hplay, hguard, hres]
  rfl

theorem C3_reveal_opened_noop_witness :
    canPlayForGameState openedSnapshot.gameState = true ∧
    uncoverTile ⟨1, 1, 0⟩ (fun _ => []) 0 0 0 openedSnapshot = some
      { gameState :=
          if openedSnapshot.uncoveredCount + openedSnapshot.bombsCount =
              openedSnapshot.columns * openedSnapshot.rows then GameState.winner
          else GameState.playing
        columns := openedSnapshot.columns
        rows := openedSnapshot.rows
        board := openedSnapshot.board
        proximities := openedSnapshot.proximities
        bombsCount := openedSnapshot.bombsCount
        uncoveredCount := openedSnapshot.uncoveredCount
        flagsCount := openedSnapshot.flagsCount
        movesCount := openedSnapshot.movesCount + 1 } :=
  ⟨rfl, C3_reveal_opened_noop ⟨1, 1, 0⟩ (fun _ => []) 0 0 0 openedSnapshot rfl
    (by decide) (by decide) (by decide) (by decide)⟩

theorem flagItemChange_covered (t : Tile) (h : t.userState = UserState.covered) :
    flagItemChange t = { t with userState := UserState.flag } := by
  unfold flagItemChange
  rw [if_pos h]

theorem flagItemChange_flag (t : Tile) (h : t.userState = UserState.flag) :
    flagItemChange t = { t with userState := UserState.covered } := by
  unfold flagItemChange
  have hnc : ¬t.userState = UserState.covered := by
    rw [h]
    intro hcon
    cases hcon
  rw [if_neg hnc, if_pos h]

theorem flagItemChange_other (t : Tile)
    (h : t.userState = UserState.opened ∨ t.userState = UserState.hitBomb) :
    flagItemChange t = t := by
  unfold flagItemChange
  rcases h with h | h <;>
    · have hnc : ¬t.userState = UserState.covered := by
        rw [h]
        intro hcon
        cases hcon
      have hnf : ¬t.userState = UserState.flag := by
        rw [h]
        intro hcon
        cases hcon
      rw [if_neg hnc, if_neg hnf]

theorem flagItemDelta_covered (t : Tile) (h : t.userState = UserState.covered) :
    flagItemDelta t = 1 := by
  unfold flagItemDelta
  rw [if_pos h]

theorem flagItemDelta_flag (t : Tile) (h : t.userState = UserState.flag) :
    flagItemDelta t = -1 := by
  unfold flagItemDelta
  have hnc : ¬t.userState = UserState.covered := by
    rw [h]
    intro hcon
    cases hcon
  rw [if_neg hnc, if_pos h]

theorem flagItemDelta_other (t : Tile)
    (h : t.userState = UserState.opened ∨ t.userState = UserState.hitBomb) :
    flagItemDelta t = 0 := by
  unfold flagItemDelta
  rcases h with h | h <;>
    · have hnc : ¬t.userState = UserState.covered := by
        rw [h]
        intro hcon
        cases hcon
      have hnf : ¬t.userState = UserState.flag := by
        rw [h]
        intro hcon
        cases hcon
      rw [if_neg hnc, if_neg hnf]

/-- Claim C7: `flagTile` on an in-bounds coordinate turns a covered tile into
a flag (`flagsCount + 1`), a flagged tile back to covered (`flagsCount - 1`),
leaves an open or hit tile and the whole snapshot untouched, and flagging
twice restores both the tile and the counter (round-trip). -/
theorem C7_flagTile_toggle (s : Snapshot) (rowIndex colIndex : Nat)
    (hr : rowIndex < s.board.length) (hc : colIndex < (s.board.getD rowIndex []).length) :
    ((tileAt s.board rowIndex colIndex).userState = UserState.covered →
      tileAt (flagTile rowIndex colIndex s).board rowIndex colIndex =
        { tileAt s.board rowIndex colIndex with userState := UserState.flag } ∧
      (flagTile rowIndex colIndex s).flagsCount = s.flagsCount + 1 ∧
      tileAt (flagTile rowIndex colIndex (flagTile rowIndex colIndex s)).board
        rowIndex colIndex = tileAt s.board rowIndex colIndex ∧
      (flagTile rowIndex colIndex (flagTile rowIndex colIndex s)).flagsCount = s.flagsCount) ∧
    ((tileAt s.board rowIndex colIndex).userState = UserState.flag →
      tileAt (flagTile rowIndex colIndex s).board rowIndex colIndex =
        { tileAt s.board rowIndex colIndex with userState := UserState.covered } ∧
      (flagTile rowIndex colIndex s).flagsCount = s.flagsCount - 1) ∧
    ((tileAt s.board rowIndex colIndex).userState = UserState.opened ∨
        (tileAt s.board rowIndex colIndex).userState = UserState.hitBomb →
      flagTile rowIndex colIndex s = s) := by
  have hboard : (flagTile rowIndex colIndex s).board =
      changeBoardItem s.board rowIndex colIndex flagItemChange := rfl
  have hcount : (flagTile rowIndex colIndex s).flagsCount =
      s.flagsCount +
        (if rowIndex < s.board.length ∧ colIndex < (s.board.getD rowIndex []).length then
          flagItemDelta (tileAt s.board rowIndex colIndex) else 0) := rfl
  refine ⟨?_, ?_, ?_⟩
  · intro hcov
    have h1 : tileAt (flagTile rowIndex colIndex s).board rowIndex colIndex =
        { tileAt s.board rowIndex colIndex with userState := UserState.flag } := by
      rw [hboard, tileAt_changeBoardItem_self _ _ _ _ hr hc, flagItemChange_covered _ hcov]
    have h2 : (flagTile rowIndex colIndex s).flagsCount = s.flagsCount + 1 := by
      rw [hcount, if_pos ⟨hr, hc⟩, flagItemDelta_covered _ hcov]
    have hr1 : rowIndex < (flagTile rowIndex colIndex s).board.length := by
      rw [hboard, changeBoardItem_length]
      exact hr
    have hc1 : colIndex < ((flagTile rowIndex colIndex s).board.getD rowIndex []).length := by
      rw [hboard, changeBoardItem_row_length]
      exact hc
    have h3 : tileAt (flagTile rowIndex colIndex (flagTile rowIndex colIndex s)).board
        rowIndex colIndex = tileAt s.board rowIndex colIndex := by
      rw [show (flagTile rowIndex colIndex (flagTile rowIndex colIndex s)).board =
          changeBoardItem (flagTile rowIndex colIndex s).board rowIndex colIndex
            flagItemChange from rfl,
        tileAt_changeBoardItem_self _ _ _ _ hr1 hc1, h1, flagItemChange_flag _ rfl]
      exact tile_userState_eta _ _ hcov
    have h4 : (flagTile rowIndex colIndex (flagTile rowIndex colIndex s)).flagsCount =
        s.flagsCount := by
      rw [show (flagTile rowIndex colIndex (flagTile rowIndex colIndex s)).flagsCount =
          (flagTile rowIndex colIndex s).flagsCount +
            (if rowIndex < (flagTile rowIndex colIndex s).board.length ∧
                colIndex < ((flagTile rowIndex colIndex s).board.getD rowIndex []).length then
              flagItemDelta (tileAt (flagTile rowIndex colIndex s).board rowIndex colIndex)
            else 0) from rfl,
        if_pos ⟨hr1, hc1⟩, h1, h2, flagItemDelta_flag _ rfl]
      omega
    exact ⟨h1, h2, h3, h4⟩
  · intro hflag
    constructor
    · rw [hboard, tileAt_changeBoardItem_self _ _ _ _ hr hc, flagItemChange_flag _ hflag]
    · rw [hcount, if_pos ⟨hr, hc⟩, flagItemDelta_flag _ hflag]
      omega
  · intro hterm
    have hfix := flagItemChange_other _ hterm
    have hdelta := flagItemDelta_other _ hterm
    have hb := changeBoardItem_eq_self s.board rowIndex colIndex flagItemChange hfix
    unfold flagTile
    rw [hb, hdelta]
    simp

def coveredSnapshot : Snapshot :=
  ⟨GameState.fresh, 1, 1, [[⟨BombState.blank, UserState.covered⟩]], [[0]], 0, 0, 0, 0⟩

theorem C7_flagTile_toggle_witness :
    (tileAt coveredSnapshot.board 0 0).userState = UserState.covered ∧
    (tileAt (flagTile 0 0 coveredSnapshot).board 0 0 =
        { tileAt coveredSnapshot.board 0 0 with userState := UserState.flag } ∧
      (flagTile 0 0 coveredSnapshot).flagsCount = coveredSnapshot.flagsCount + 1 ∧
      tileAt (flagTile 0 0 (flagTile 0 0 coveredSnapshot)).board 0 0 =
        tileAt coveredSnapshot.board 0 0 ∧
      (flagTile 0 0 (flagTile 0 0 coveredSnapshot)).flagsCount =
        coveredSnapshot.flagsCount) :=
  ⟨rfl, (C7_flagTile_toggle coveredSnapshot 0 0 (by decide) (by decide)).1 rfl⟩

/-- Claim C6: for a playable snapshot, the returned game state is `gameOver`
exactly when the flood fill hit a bomb during this call, `winner` exactly when
no bomb was hit and `uncoveredCount + bombsCount = columns * rows` holds after
the call, and `playing` otherwise; and `winner` is outside the playable set,
so no later reveal can change the state again (the equality fires `winner`
exactly once, on the move that makes it hold). -/
theorem C6_gameState_transition (props : Settings) (shuffles : Nat → List Bool)
    (regenFuel : Nat) (rowIndex colIndex : Nat) (s : Snapshot)
    (hplay : canPlayForGameState s.gameState = true) :
    canPlayForGameState GameState.winner = false ∧
    ∀ s2, uncoverTile props shuffles regenFuel rowIndex colIndex s = some s2 →
      ((s2.gameState = GameState.gameOver ↔
        (uncoverResultState props shuffles regenFuel rowIndex colIndex s).gameOver = true) ∧
      (s2.gameState = GameState.winner ↔
        ((uncoverResultState props shuffles regenFuel rowIndex colIndex s).gameOver = false ∧
          s2.uncoveredCount + s.bombsCount = s.columns * s.rows)) ∧
      (s2.gameState = GameState.playing ↔
        ((uncoverResultState props shuffles regenFuel rowIndex colIndex s).gameOver = false ∧
          ¬s2.uncoveredCount + s.bombsCount = s.columns * s.rows))) := by
  refine ⟨rfl, ?_⟩
  intro s2 h
  simp only [uncoverTile] at h
  rw [if_pos hplay] at h
  injection h with h
  subst h
  cases hgo : (uncoverResultState props shuffles regenFuel rowIndex colIndex s).gameOver with
  | true => simp [hgo]
  | false =>
    by_cases hwon : (uncoverResultState props shuffles regenFuel rowIndex colIndex
        s).uncoveredCount + s.bombsCount = s.columns * s.rows
    · simp [hgo, hwon]
    · simp [hgo, hwon]

def c4props : Settings := ⟨2, 2, 1 / 4⟩

def c4start : Snapshot := restart 2 2 (1 / 4) [false, false, false, true]

def c4afterFirst : Snapshot := (uncoverTile c4props (fun _ => []) 0 0 0 c4start).getD c4start

def c4afterFlag : Snapshot := flagTile 1 1 c4afterFirst

def c4afterHit : Snapshot := (uncoverTile c4props (fun _ => []) 0 1 1 c4afterFlag).getD c4afterFlag

/-- Claim C4 (code bug): `flagsCount` is claimed to always equal the number of
flagged tiles, the reveal of a flagged tile adjusting it accordingly. On a
2-by-2 board with one bomb at (1,1) (`bombOdds = 1/4`), after revealing (0,0)
and flagging (1,1) the invariant holds (`flagsCount = 1`, one flag tile), but
revealing the flagged bomb at (1,1) takes the `hitBomb` early-return before
the `flagsCount -= 1` adjustment: the game is over, no tile is flagged any
more, yet `flagsCount` is still 1. -/
theorem C4_flagsCount_invariant_bug :
    c4afterFlag.flagsCount = 1 ∧ flagTilesCount c4afterFlag.board = 1 ∧
    c4afterHit.gameState = GameState.gameOver ∧
    c4afterHit.flagsCount = 1 ∧ flagTilesCount c4afterHit.board = 0 := by
  have h1 : c4start =
      { gameState := GameState.fresh, columns := 2, rows := 2,
        board := restartBoard 2 2 [false, false, false, true],
        proximities := countProximities (restartBoard 2 2 [false, false, false, true]),
        bombsCount := 1, uncoveredCount := 0, flagsCount := 0, movesCount := 0 } := by
    unfold c4start restart
    rw [bombsCountOf_c2_r2_quarter]
  unfold c4afterHit c4afterFlag c4afterFirst
  rw [h1]
  decide

/-- Claim C2: the first-move guarantee. For a playable snapshot with
`movesCount = 0`, a well-dimensioned board, proximities consistent with the
board (as restart produces them), regeneration settings matching the
snapshot's dimensions, and a regeneration stream that succeeds within the
loop's fuel (the source's `while` loop is unbounded; it terminates exactly
when some regenerated board is bomb-free at the target), the board the reveal
runs on is bomb-free at the target, the flood fill never sets `gameOver`, and
the returned snapshot is not `gameOver`, shows the targeted tile as `open`,
and carries the (possibly regenerated) proximity grid. -/
theorem C2_firstMove_noBomb (props : Settings) (shuffles : Nat → List Bool)
    (regenFuel : Nat) (rowIndex colIndex : Nat) (s : Snapshot)
    (hplay : canPlayForGameState s.gameState = true)
    (hm : s.movesCount = 0)
    (hdims : boardDims s.rows s.columns s.board)
    (hpc : props.columns = s.columns) (hpr : props.rows = s.rows)
    (hr : rowIndex < s.rows) (hc : colIndex < s.columns)
    (hcons : consistentProx s.rows s.columns s.board s.proximities)
    (hsucc : (tileAt s.board rowIndex colIndex).bombState ≠ BombState.bomb ∨
      ∃ j, j < regenFuel ∧
        (tileAt (regenPair props (shuffles j)).1 rowIndex colIndex).bombState
          ≠ BombState.bomb) :
    (tileAt (afterGuard props shuffles regenFuel rowIndex colIndex s).1
        rowIndex colIndex).bombState ≠ BombState.bomb ∧
    (uncoverResultState props shuffles regenFuel rowIndex colIndex s).gameOver = false ∧
    ∀ s2, uncoverTile props shuffles regenFuel rowIndex colIndex s = some s2 →
      s2.gameState ≠ GameState.gameOver ∧
      (tileAt s2.board rowIndex colIndex).userState = UserState.opened ∧
      s2.proximities = (afterGuard props shuffles regenFuel rowIndex colIndex s).2 := by
  have hguard : afterGuard props shuffles regenFuel rowIndex colIndex s =
      regenLoop props shuffles rowIndex colIndex regenFuel 0 (s.board, s.proximities) := by
    unfold afterGuard
    rw [if_pos hm]
  have hnotbomb : (tileAt (afterGuard props shuffles regenFuel rowIndex colIndex s).1
      rowIndex colIndex).bombState ≠ BombState.bomb := by
    rw [hguard]
    apply regenLoop_not_bomb
    rcases hsucc with h | ⟨j, hj, hgood⟩
    · exact Or.inl h
    · exact Or.inr ⟨j, hj, by simpa using hgood⟩
  have hblank : (tileAt (afterGuard props shuffles regenFuel rowIndex colIndex s).1
      rowIndex colIndex).bombState = BombState.blank := by
    cases hst : (tileAt (afterGuard props shuffles regenFuel rowIndex colIndex s).1
        rowIndex colIndex).bombState
    · rfl
    · exact absurd hst hnotbomb
  have hbpc := afterGuard_consistent props shuffles regenFuel rowIndex colIndex s hpc hpr hcons
  have hbpd := afterGuard_dims props shuffles regenFuel rowIndex colIndex s hpc hpr hdims
  have hB0 : ∀ r' c',
      (tileAt (copyBoard (afterGuard props shuffles regenFuel rowIndex colIndex s).1)
        r' c').bombState =
      (tileAt (afterGuard props shuffles regenFuel rowIndex colIndex s).1 r' c').bombState := by
    intro r' c'
    rw [copyBoard_eq]
  have hres0 : uncoverResultState props shuffles regenFuel rowIndex colIndex s =
      uncoverStep s.rows s.columns
        (afterGuard props shuffles regenFuel rowIndex colIndex s).2 (s.columns * s.rows + 1)
        rowIndex colIndex
        { board := copyBoard (afterGuard props shuffles regenFuel rowIndex colIndex s).1
          uncoveredCount := s.uncoveredCount
          flagsCount := s.flagsCount
          gameOver := false } := rfl
  have hsafe := uncoverStep_safe s.rows s.columns
    (afterGuard props shuffles regenFuel rowIndex colIndex s).2
    (afterGuard props shuffles regenFuel rowIndex colIndex s).1 hbpc
    (s.columns * s.rows + 1) rowIndex colIndex
    { board := copyBoard (afterGuard props shuffles regenFuel rowIndex colIndex s).1
      uncoveredCount := s.uncoveredCount
      flagsCount := s.flagsCount
      gameOver := false }
    hB0 rfl hr hc hblank
  have hgof : (uncoverResultState props shuffles regenFuel rowIndex colIndex s).gameOver
      = false := by
    rw [hres0]
    exact hsafe.1
  have hopened := uncoverStep_target_opened s.rows s.columns
    (afterGuard props shuffles regenFuel rowIndex colIndex s).2 (s.columns * s.rows)
    rowIndex colIndex
    { board := copyBoard (afterGuard props shuffles regenFuel rowIndex colIndex s).1
      uncoveredCount := s.uncoveredCount
      flagsCount := s.flagsCount
      gameOver := false }
    rfl (by rw [copyBoard_eq]; exact hblank)
    (by rw [copyBoard_eq, hbpd.1]; exact hr)
    (by rw [copyBoard_eq, hbpd.2 rowIndex hr]; exact hc)
  refine ⟨hnotbomb, hgof, ?_⟩
  intro s2 h
  simp only [uncoverTile] at h
  rw [if_pos hplay] at h
  injection h with h
  subst h
  refine ⟨?_, ?_, rfl⟩
  · show (if (uncoverResultState props shuffles regenFuel rowIndex colIndex s).gameOver = true
        then GameState.gameOver
        else if (uncoverResultState props shuffles regenFuel rowIndex colIndex
              s).uncoveredCount + s.bombsCount = s.columns * s.rows then GameState.winner
          else GameState.playing)
        ≠ GameState.gameOver
    rw [hgof, if_neg Bool.false_ne_true]
    split
    · intro hcon
      cases hcon
    · intro hcon
      cases hcon
  · show (tileAt (uncoverResultState props shuffles regenFuel rowIndex colIndex s).board
        rowIndex colIndex).userState = UserState.opened
    rw [hres0]
    exact hopened

def freshSnapshot : Snapshot :=
  ⟨GameState.fresh, 1, 1, [[⟨BombState.blank, UserState.covered⟩]],
    countProximities [[⟨BombState.blank, UserState.covered⟩]], 0, 0, 0, 0⟩

def freshRevealed : Snapshot :=
  ⟨GameState.winner, 1, 1, [[⟨BombState.blank, UserState.opened⟩]], [[0]], 0, 1, 0, 1⟩

theorem C2_firstMove_noBomb_witness :
    (tileAt (afterGuard ⟨1, 1, 0⟩ (fun _ => []) 0 0 0 freshSnapshot).1 0 0).bombState
        ≠ BombState.bomb ∧
    (uncoverResultState ⟨1, 1, 0⟩ (fun _ => []) 0 0 0 freshSnapshot).gameOver = false ∧
    (freshRevealed.gameState ≠ GameState.gameOver ∧
      (tileAt freshRevealed.board 0 0).userState = UserState.opened ∧
      freshRevealed.proximities = (afterGuard ⟨1, 1, 0⟩ (fun _ => []) 0 0 0 freshSnapshot).2) :=
  ⟨(C2_firstMove_noBomb ⟨1, 1, 0⟩ (fun _ => []) 0 0 0 freshSnapshot rfl rfl (by decide) rfl rfl
      (by decide) (by decide)
      (countProximities_consistent 1 1 [[⟨BombState.blank, UserState.covered⟩]] (by decide))
      (Or.inl (by decide))).1,
    (C2_firstMove_noBomb ⟨1, 1, 0⟩ (fun _ => []) 0 0 0 freshSnapshot rfl rfl (by decide) rfl rfl
      (by decide) (by decide)
      (countProximities_consistent 1 1 [[⟨BombState.blank, UserState.covered⟩]] (by decide))
      (Or.inl (by decide))).2.1,
    (C2_firstMove_noBomb ⟨1, 1, 0⟩ (fun _ => []) 0 0 0 freshSnapshot rfl rfl (by decide) rfl rfl
      (by decide) (by decide)
      (countProximities_consistent 1 1 [[⟨BombState.blank, UserState.covered⟩]] (by decide))
      (Or.inl (by decide))).2.2 freshRevealed (by decide)⟩

/-- Claim C10: under a proximity grid consistent with the board, a reveal can
turn at most the initially targeted cell into `hitBomb`: every other cell of
the returned board shows `hitBomb` only if it already did on the board the
flood fill ran on (the pair selected by the first-move guard), i.e. the
short-circuit `gameOver` branch is never taken inside the recursion. -/
theorem C10_hitBomb_only_target (props : Settings) (shuffles : Nat → List Bool)
    (regenFuel : Nat) (rowIndex colIndex : Nat) (s : Snapshot)
    (hpc : props.columns = s.columns) (hpr : props.rows = s.rows)
    (hr : rowIndex < s.rows) (hc : colIndex < s.columns)
    (hcons : consistentProx s.rows s.columns s.board s.proximities) :
    ∀ s2, uncoverTile props shuffles regenFuel rowIndex colIndex s = some s2 →
      ∀ r' c', ¬(r' = rowIndex ∧ c' = colIndex) →
        (tileAt s2.board r' c').userState = UserState.hitBomb →
        (tileAt (afterGuard props shuffles regenFuel rowIndex colIndex s).1 r' c').userState
          = UserState.hitBomb := by
  intro s2 h r' c' hne hhit
  simp only [uncoverTile] at h
  by_cases hplay : canPlayForGameState s.gameState = true
  · rw [if_pos hplay] at h
    injection h with h
    subst h
    have hhit2 : (tileAt (uncoverResultState props shuffles regenFuel rowIndex colIndex
        s).board r' c').userState = UserState.hitBomb := hhit
    have hbpc := afterGuard_consistent props shuffles regenFuel rowIndex colIndex s hpc hpr hcons
    have hres0 : uncoverResultState props shuffles regenFuel rowIndex colIndex s =
        uncoverStep s.rows s.columns
          (afterGuard props shuffles regenFuel rowIndex colIndex s).2 (s.columns * s.rows + 1)
          rowIndex colIndex
          { board := copyBoard (afterGuard props shuffles regenFuel rowIndex colIndex s).1
            uncoveredCount := s.uncoveredCount
            flagsCount := s.flagsCount
            gameOver := false } := rfl
    rw [hres0] at hhit2
    cases hbt : (tileAt (afterGuard props shuffles regenFuel rowIndex colIndex s).1
        rowIndex colIndex).bombState with
    | blank =>
      have hB0 : ∀ ra ca,
          (tileAt (copyBoard (afterGuard props shuffles regenFuel rowIndex colIndex s).1)
            ra ca).bombState =
          (tileAt (afterGuard props shuffles regenFuel rowIndex colIndex s).1 ra ca).bombState := by
        intro ra ca
        rw [copyBoard_eq]
      have hsafe := uncoverStep_safe s.rows s.columns
        (afterGuard props shuffles regenFuel rowIndex colIndex s).2
        (afterGuard props shuffles regenFuel rowIndex colIndex s).1 hbpc
        (s.columns * s.rows + 1) rowIndex colIndex
        { board := copyBoard (afterGuard props shuffles regenFuel rowIndex colIndex s).1
          uncoveredCount := s.uncoveredCount
          flagsCount := s.flagsCount
          gameOver := false }
        hB0 rfl hr hc hbt
      have h3 := hsafe.2 r' c' hhit2
      rw [copyBoard_eq] at h3
      exact h3
    | bomb =>
      rw [copyBoard_eq] at hhit2
      simp only [uncoverStep] at hhit2
      rw [if_neg Bool.false_ne_true] at hhit2
      by_cases hop : (tileAt (afterGuard props shuffles regenFuel rowIndex colIndex s).1
          rowIndex colIndex).userState = UserState.opened
      · rw [if_pos hop] at hhit2
        exact hhit2
      · rw [if_neg hop] at hhit2
        rw [if_pos (by rw [changeItemToUncovered_bomb _ hbt])] at hhit2
        rw [tileAt_setTile_ne _ _ _ _ _ _ hne] at hhit2
        exact hhit2
  · rw [if_neg hplay] at h
    exact Option.noConfusion h

def remnantSnapshot : Snapshot :=
  ⟨GameState.playing, 2, 1,
    [[⟨BombState.blank, UserState.covered⟩, ⟨BombState.bomb, UserState.hitBomb⟩]],
    [[1, 0]], 1, 0, 0, 1⟩

def remnantRevealed : Snapshot :=
  ⟨GameState.winner, 2, 1,
    [[⟨BombState.blank, UserState.opened⟩, ⟨BombState.bomb, UserState.hitBomb⟩]],
    [[1, 0]], 1, 1, 0, 2⟩

theorem C10_hitBomb_only_target_witness :
    (tileAt (afterGuard ⟨2, 1, 0⟩ (fun _ => []) 0 0 0 remnantSnapshot).1 0 1).userState
      = UserState.hitBomb :=
  C10_hitBomb_only_target ⟨2, 1, 0⟩ (fun _ => []) 0 0 0 remnantSnapshot rfl rfl (by decide)
    (by decide) (by decide) remnantRevealed (by decide) 0 1 (by decide) (by decide)

theorem C6_gameState_transition_witness :
    canPlayForGameState GameState.winner = false ∧
    ((wonSnapshot.gameState = GameState.gameOver ↔
        (uncoverResultState ⟨1, 1, 0⟩ (fun _ => []) 0 0 0 coveredSnapshot).gameOver = true) ∧
      (wonSnapshot.gameState = GameState.winner ↔
        ((uncoverResultState ⟨1, 1, 0⟩ (fun _ => []) 0 0 0 coveredSnapshot).gameOver = false ∧
          wonSnapshot.uncoveredCount + coveredSnapshot.bombsCount =
            coveredSnapshot.columns * coveredSnapshot.rows)) ∧
      (wonSnapshot.gameState = GameState.playing ↔
        ((uncoverResultState ⟨1, 1, 0⟩ (fun _ => []) 0 0 0 coveredSnapshot).gameOver = false ∧
          ¬wonSnapshot.uncoveredCount + coveredSnapshot.bombsCount =
            coveredSnapshot.columns * coveredSnapshot.rows))) :=
  ⟨(C6_gameState_transition ⟨1, 1, 0⟩ (fun _ => []) 0 0 0 coveredSnapshot rfl).1,
    (C6_gameState_transition ⟨1, 1, 0⟩ (fun _ => []) 0 0 0 coveredSnapshot rfl).2
      wonSnapshot (by decide)⟩
